import Mathlib

/-!
Verification of the time-correction core of `liblsl` (`src/time_receiver.h`).
Only the header (declarations and documentation) is present in the sources;
the member-function bodies live in a `time_receiver.cpp` that is not part of
the source tree, so every behavioural definition below is modelled from the
specification document, keeping the names declared in the header.
-/

namespace TimeReceiver

/-- Modelled from the spec: the OffsetState record of §3
(`{offset, remote_time, uncertainty, has_value, reset_flag}`), matching the
header fields `timeoffset_`, `remote_time_`, `uncertainty_`, `was_reset_`.
The `NOT_ASSIGNED` sentinel of the header is modelled by the explicit
`has_value` flag of the spec. The body of the class is in the missing
`time_receiver.cpp`. -/
structure OffsetState where
  timeoffset : ℚ
  remote_time : ℚ
  uncertainty : ℚ
  has_value : Bool
  reset_flag : Bool
deriving DecidableEq

/-- Modelled from the spec (§4.1): `publish(offset, remote_time, uncertainty)`
sets `has_value := true` and stores the triple. The publishing code is in the
missing `time_receiver.cpp`. -/
def publish (s : OffsetState) (offset remote_time uncertainty : ℚ) : OffsetState :=
  { s with
    timeoffset := offset
    remote_time := remote_time
    uncertainty := uncertainty
    has_value := true }

/-- Modelled from the spec (§4.1): `invalidate()` sets `has_value := false` and
`reset_flag := true`; this is the body of `reset_timeoffset_on_recovery`,
missing from the sources. -/
def invalidate (s : OffsetState) : OffsetState :=
  { s with has_value := false, reset_flag := true }

/-- Modelled from the spec (§4.1): `consume_reset_flag()` atomically reads and
clears `reset_flag`; this is the body of `was_reset`, missing from the
sources. -/
def consume_reset_flag (s : OffsetState) : Bool × OffsetState :=
  (s.reset_flag, { s with reset_flag := false })

/-- Result of a blocking read: either the stored triple or the timeout
failure (`timeout_error` in the header documentation). -/
inductive ReadResult where
  | ok (offset remote_time uncertainty : ℚ)
  | timeout_error
deriving DecidableEq

/-- A publish performed by the background worker while a foreground reader is
waiting: its time (measured from the start of the wait) and the published
triple. -/
structure PublishArrival where
  at_time : ℚ
  offset : ℚ
  remote_time : ℚ
  uncertainty : ℚ
deriving DecidableEq

/-- Modelled from the spec (§4.1): `read(timeout)`. If `has_value` is already
true the call returns the current triple immediately (blocked duration 0).
Otherwise the caller blocks; `arrival` models the publish (if any) performed
by the background worker during the wait. A publish at or before the deadline
releases the reader with the fresh triple; otherwise the read fails with
`TimeoutError` after blocking for the full timeout. The second component of
the result is the duration for which the caller was blocked. The blocking
code is in the missing `time_receiver.cpp`. -/
def read (s : OffsetState) (timeout : ℚ) (arrival : Option PublishArrival) :
    ReadResult × ℚ :=
  if s.has_value then
    (ReadResult.ok s.timeoffset s.remote_time s.uncertainty, 0)
  else
    match arrival with
    | some a =>
      if a.at_time ≤ timeout then
        (ReadResult.ok a.offset a.remote_time a.uncertainty, a.at_time)
      else
        (ReadResult.timeout_error, timeout)
    | none => (ReadResult.timeout_error, timeout)

/-- Modelled from the spec (§4.5): the one-argument overload
`time_correction(timeout)` is a thin wrapper over `OffsetStore.read`
returning only the offset; its body is in the missing `time_receiver.cpp`. -/
def time_correction (s : OffsetState) (timeout : ℚ)
    (arrival : Option PublishArrival) : Except Unit ℚ :=
  match (read s timeout arrival).1 with
  | ReadResult.ok o _ _ => Except.ok o
  | ReadResult.timeout_error => Except.error ()

/-- Modelled from the spec (§4.5): the three-argument overload
`time_correction(&remote_time, &uncertainty, timeout)` — the same read, also
yielding the auxiliary `remote_time` and `uncertainty` outputs; its body is
in the missing `time_receiver.cpp`. -/
def time_correction_out (s : OffsetState) (timeout : ℚ)
    (arrival : Option PublishArrival) : Except Unit (ℚ × ℚ × ℚ) :=
  match (read s timeout arrival).1 with
  | ReadResult.ok o r u => Except.ok (o, r, u)
  | ReadResult.timeout_error => Except.error ()

/-- Modelled from the spec (§4.5): `was_reset()` is a thin wrapper over
`OffsetStore.consume_reset_flag()`; its body is in the missing
`time_receiver.cpp`. -/
def was_reset (s : OffsetState) : Bool × OffsetState :=
  consume_reset_flag s

/-- Modelled from the spec (§3): a Probe `{wave id, sequence number, local
send time}`. -/
structure Probe where
  wave_id : ℤ
  seq : ℕ
  local_send_time : ℚ
deriving DecidableEq

/-- Modelled from the spec (§6): an inbound reply datagram with its embedded
wave id, sequence number and remote-observed timestamp. -/
structure ReplyPacket where
  wave_id : ℤ
  seq : ℕ
  remote_time : ℚ
deriving DecidableEq

/-- Modelled from the spec: the background state of the receiver — the shared
OffsetStore plus the wave-local data of the header (`current_wave_id_`,
`estimates_`, `estimate_times_`); the code manipulating them is in the
missing `time_receiver.cpp`. -/
structure TimeReceiverState where
  store : OffsetState
  current_wave_id : ℤ
  estimates : List (ℚ × ℚ)
  estimate_times : List (ℚ × ℚ)
deriving DecidableEq

/-- The initial receiver state: `current_wave_id_{0}` in the header, no value
published yet. -/
def init_state : TimeReceiverState :=
  { store := { timeoffset := 0, remote_time := 0, uncertainty := 0,
               has_value := false, reset_flag := false }
    current_wave_id := 0
    estimates := []
    estimate_times := [] }

/-- Modelled from the spec (§4.2 step 1): `start_time_estimation` allocates
the next wave id (strictly increasing) and clears the wave's Estimate and
TimedSample sequences; its body is in the missing `time_receiver.cpp`. -/
def start_time_estimation (s : TimeReceiverState) : TimeReceiverState :=
  { s with
    current_wave_id := s.current_wave_id + 1
    estimates := []
    estimate_times := [] }

/-- Modelled from the spec (§4.2 step 3): `handle_receive_outcome` for one
decoded inbound datagram. A reply whose embedded wave id differs from the
current wave id is discarded silently; otherwise
`round_trip = local_receive_time − probe.local_send_time`,
`offset_estimate = packet.remote_time − (probe.local_send_time + round_trip/2)`,
`uncertainty_estimate = round_trip`, appended to `estimates_` and
`estimate_times_`; its body is in the missing `time_receiver.cpp`. -/
def handle_receive_outcome (s : TimeReceiverState) (probe : Probe)
    (packet : ReplyPacket) (local_receive_time : ℚ) : TimeReceiverState :=
  if packet.wave_id = s.current_wave_id then
    let round_trip := local_receive_time - probe.local_send_time
    let offset_estimate := packet.remote_time - (probe.local_send_time + round_trip / 2)
    { s with
      estimates := s.estimates ++ [(offset_estimate, round_trip)]
      estimate_times := s.estimate_times ++ [(probe.local_send_time, packet.remote_time)] }
  else s

/-- Keep whichever of two (estimate, timed-sample) pairs has the smaller
uncertainty (second component of the estimate); the earlier one wins ties. -/
def better (b x : (ℚ × ℚ) × (ℚ × ℚ)) : (ℚ × ℚ) × (ℚ × ℚ) :=
  if x.1.2 < b.1.2 then x else b

/-- Modelled from the spec (§4.2 step 4): `result_aggregation_scheduled` —
when the aggregation deadline fires, if the collected Estimates are non-empty
the estimate with minimum uncertainty is selected and published (together
with the matching remote time of the parallel TimedSamples list); if the wave
collected nothing, the store is left untouched. Its body is in the missing
`time_receiver.cpp`. -/
def result_aggregation_scheduled (s : TimeReceiverState) : TimeReceiverState :=
  match s.estimates.zip s.estimate_times with
  | [] => s
  | p :: rest =>
    let b := rest.foldl better p
    { s with store := publish s.store b.1.1 b.2.2 b.1.2 }

/-- The scenario of spec §8: a fresh wave in which replies to probes 0, 2 and
5 arrive, with round-trip times 0.004, 0.002 and 0.009 seconds (modelled by
receive times `send + round_trip`) and remote times `t0`, `t1`, `t2`; then
the aggregation deadline fires. -/
def wave_scenario (s : TimeReceiverState) (t0 t1 t2 a0 a2 a5 : ℚ) :
    TimeReceiverState :=
  let w := start_time_estimation s
  let i := w.current_wave_id
  let w0 := handle_receive_outcome w ⟨i, 0, a0⟩ ⟨i, 0, t0⟩ (a0 + 4/1000)
  let w1 := handle_receive_outcome w0 ⟨i, 2, a2⟩ ⟨i, 2, t1⟩ (a2 + 2/1000)
  let w2 := handle_receive_outcome w1 ⟨i, 5, a5⟩ ⟨i, 5, t2⟩ (a5 + 9/1000)
  result_aggregation_scheduled w2

/-- Events acting on the shared OffsetStore: a publish by the scheduler
thread, an invalidation by the recovery watcher, or a foreground consumption
of the reset flag. -/
inductive StoreEvent where
  | publishE (offset remote_time uncertainty : ℚ)
  | invalidateE
  | consumeE
deriving DecidableEq

/-- Whether a store event is a publish. -/
def is_publish : StoreEvent → Bool
  | StoreEvent.publishE _ _ _ => true
  | _ => false

/-- One store event applied to the OffsetStore. -/
def store_step (s : OffsetState) : StoreEvent → OffsetState
  | StoreEvent.publishE o r u => publish s o r u
  | StoreEvent.invalidateE => invalidate s
  | StoreEvent.consumeE => (consume_reset_flag s).2

/-- A sequence of store events applied in order. -/
def store_run (s : OffsetState) (es : List StoreEvent) : OffsetState :=
  es.foldl store_step s

/-- Events of the background worker: start of a new wave, reception of a
reply datagram, firing of the aggregation deadline, and a connection-recovery
notification (which runs `reset_timeoffset_on_recovery`). -/
inductive RxEvent where
  | startWave
  | receiveReply (probe : Probe) (packet : ReplyPacket) (local_receive_time : ℚ)
  | aggregate
  | recovery
deriving DecidableEq

/-- Modelled from the spec (§4.4): one worker event applied to the receiver
state; `recovery` invokes `reset_timeoffset_on_recovery`, i.e.
`OffsetStore.invalidate()`; the bodies are in the missing
`time_receiver.cpp`. -/
def rx_step (s : TimeReceiverState) : RxEvent → TimeReceiverState
  | RxEvent.startWave => start_time_estimation s
  | RxEvent.receiveReply p pk t => handle_receive_outcome s p pk t
  | RxEvent.aggregate => result_aggregation_scheduled s
  | RxEvent.recovery => { s with store := invalidate s.store }

/-- A sequence of worker events applied in order. -/
def rx_run (s : TimeReceiverState) (es : List RxEvent) : TimeReceiverState :=
  es.foldl rx_step s

/-- The wave ids allocated along a run, in order of allocation. -/
def wave_ids : TimeReceiverState → List RxEvent → List ℤ
  | _, [] => []
  | s, RxEvent.startWave :: es =>
    (start_time_estimation s).current_wave_id ::
      wave_ids (rx_step s RxEvent.startWave) es
  | s, e :: es => wave_ids (rx_step s e) es

/-- Claim C2: a read issued while `has_value` is already true returns the
stored `{offset, remote_time, uncertainty}` triple immediately (blocked
duration 0), for every timeout and regardless of any concurrent publish. -/
theorem read_immediate_when_has_value (s : OffsetState) (timeout : ℚ)
    (arrival : Option PublishArrival) (h : s.has_value = true) :
    read s timeout arrival =
      (ReadResult.ok s.timeoffset s.remote_time s.uncertainty, 0) := by
  simp [read, h]

/-- Witness for C2 at a concrete store and timeout. -/
theorem read_immediate_when_has_value_witness :
    read ⟨1, 2, 3, true, false⟩ 5 none = (ReadResult.ok 1 2 3, 0) :=
  read_immediate_when_has_value ⟨1, 2, 3, true, false⟩ 5 none rfl

/-- Claim C3: a read on a store that has never been published to, with no
publish occurring during the wait window, blocks for the full timeout and
then fails with `TimeoutError`, for every timeout. -/
theorem read_timeout_when_never_published (s : OffsetState) (timeout : ℚ)
    (arrival : Option PublishArrival) (h : s.has_value = false)
    (ha : ∀ a, arrival = some a → timeout < a.at_time) :
    read s timeout arrival = (ReadResult.timeout_error, timeout) := by
  cases arrival with
  | none => simp [read, h]
  | some a =>
    have hlt := ha a rfl
    simp [read, h, not_le.mpr hlt]

/-- Witness for C3 at timeouts 0, 0.01 and 2 seconds on a never-published
store. -/
theorem read_timeout_when_never_published_witness :
    read ⟨0, 0, 0, false, false⟩ 0 none = (ReadResult.timeout_error, 0) ∧
    read ⟨0, 0, 0, false, false⟩ (1/100) none = (ReadResult.timeout_error, 1/100) ∧
    read ⟨0, 0, 0, false, false⟩ 2 none = (ReadResult.timeout_error, 2) :=
  ⟨read_timeout_when_never_published _ _ _ rfl (fun _ h => nomatch h),
   read_timeout_when_never_published _ _ _ rfl (fun _ h => nomatch h),
   read_timeout_when_never_published _ _ _ rfl (fun _ h => nomatch h)⟩

/-- Claim C4: a wave that reaches its aggregation deadline with zero
collected estimates leaves the entire receiver state — in particular the
published triple and `has_value` — completely unchanged. -/
theorem aggregation_empty_wave_no_change (s : TimeReceiverState)
    (h : s.estimates = []) : result_aggregation_scheduled s = s := by
  simp [result_aggregation_scheduled, h]

/-- Witness for C4 on a concrete state with a previously published value. -/
theorem aggregation_empty_wave_no_change_witness :
    result_aggregation_scheduled
        { store := ⟨7, 8, 9, true, false⟩, current_wave_id := 4,
          estimates := [], estimate_times := [] } =
      { store := ⟨7, 8, 9, true, false⟩, current_wave_id := 4,
        estimates := [], estimate_times := [] } :=
  aggregation_empty_wave_no_change _ rfl

/-- Claim C5: a reply whose embedded wave id differs from the current wave id
is discarded silently — the receiver state (estimates, timed samples, store)
is unchanged and no error is produced, for any arrival timing. -/
theorem stale_reply_discarded (s : TimeReceiverState) (probe : Probe)
    (packet : ReplyPacket) (local_receive_time : ℚ)
    (h : packet.wave_id ≠ s.current_wave_id) :
    handle_receive_outcome s probe packet local_receive_time = s := by
  simp [handle_receive_outcome, h]

/-- Witness for C5: a reply tagged with wave id 3 arriving while wave 5 is
current is dropped. -/
theorem stale_reply_discarded_witness :
    handle_receive_outcome
        { store := ⟨0, 0, 0, false, false⟩, current_wave_id := 5,
          estimates := [], estimate_times := [] }
        ⟨3, 0, 10⟩ ⟨3, 0, 20⟩ 11 =
      { store := ⟨0, 0, 0, false, false⟩, current_wave_id := 5,
        estimates := [], estimate_times := [] } :=
  stale_reply_discarded _ ⟨3, 0, 10⟩ ⟨3, 0, 20⟩ 11 (by decide)

/-- A cleared reset flag stays cleared across any run that contains no
invalidation. -/
theorem store_run_reset_flag_false (es : List StoreEvent) :
    ∀ s : OffsetState, s.reset_flag = false → StoreEvent.invalidateE ∉ es →
      (store_run s es).reset_flag = false := by
  induction es with
  | nil => intro s h _; exact h
  | cons e es ih =>
    intro s h hne
    have hne' : StoreEvent.invalidateE ∉ es := fun hmem => hne (List.mem_cons_of_mem _ hmem)
    have he : e ≠ StoreEvent.invalidateE := fun heq => hne (heq ▸ List.mem_cons_self _ _)
    cases e with
    | publishE o r u => exact ih (publish s o r u) h hne'
    | invalidateE => exact absurd rfl he
    | consumeE => exact ih _ rfl hne'

/-- An unset `has_value` stays unset across any run that contains no
publish. -/
theorem store_run_has_value_false (es : List StoreEvent) :
    ∀ s : OffsetState, s.has_value = false → (∀ e ∈ es, is_publish e = false) →
      (store_run s es).has_value = false := by
  induction es with
  | nil => intro s h _; exact h
  | cons e es ih =>
    intro s h hes
    have hes' : ∀ e ∈ es, is_publish e = false :=
      fun e he => hes e (List.mem_cons_of_mem _ he)
    cases e with
    | publishE o r u => exact absurd (hes _ (List.mem_cons_self _ _)) (by simp [is_publish])
    | invalidateE => exact ih _ rfl hes'
    | consumeE => exact ih _ h hes'

/-- Claim C6: `was_reset` atomically reads and clears the reset flag — after
one invalidation the first call returns true, and every later call returns
false throughout any sequence of further publishes and consumptions that
contains no new invalidation. -/
theorem was_reset_consumed_once (s : OffsetState) (es : List StoreEvent)
    (h : StoreEvent.invalidateE ∉ es) :
    (was_reset (invalidate s)).1 = true ∧
      (was_reset (store_run (was_reset (invalidate s)).2 es)).1 = false := by
  constructor
  · rfl
  · have : ((was_reset (invalidate s)).2).reset_flag = false := rfl
    have hrun := store_run_reset_flag_false es _ this h
    simpa [was_reset, consume_reset_flag] using hrun

/-- Witness for C6: invalidate, consume once (true), then a publish and a
second consumption (false). -/
theorem was_reset_consumed_once_witness :
    (was_reset (invalidate ⟨1, 2, 3, true, false⟩)).1 = true ∧
      (was_reset (store_run (was_reset (invalidate ⟨1, 2, 3, true, false⟩)).2
        [StoreEvent.publishE 4 5 6, StoreEvent.consumeE])).1 = false :=
  was_reset_consumed_once ⟨1, 2, 3, true, false⟩
    [StoreEvent.publishE 4 5 6, StoreEvent.consumeE] (by decide)

/-- Claim C7: `invalidate()` sets `has_value := false` and
`reset_flag := true`; it wakes no readers by itself, so any read issued after
the invalidation — and after any further publish-free store activity — fails
with `TimeoutError` after its full timeout unless a fresh publish arrives
within the window, in which case the reader is released with the fresh
triple. -/
theorem invalidate_blocks_readers (s : OffsetState) (es : List StoreEvent)
    (hes : ∀ e ∈ es, is_publish e = false) :
    (invalidate s).has_value = false ∧ (invalidate s).reset_flag = true ∧
      (∀ timeout : ℚ,
        read (store_run (invalidate s) es) timeout none =
          (ReadResult.timeout_error, timeout)) ∧
      (∀ (timeout : ℚ) (a : PublishArrival), a.at_time ≤ timeout →
        read (store_run (invalidate s) es) timeout (some a) =
          (ReadResult.ok a.offset a.remote_time a.uncertainty, a.at_time)) := by
  have hval : (store_run (invalidate s) es).has_value = false :=
    store_run_has_value_false es _ rfl hes
  refine ⟨rfl, rfl, ?_, ?_⟩
  · intro timeout
    simp [read, hval]
  · intro timeout a hle
    simp [read, hval, hle]

/-- Witness for C7: after invalidating a published store and consuming the
reset flag, a read with timeout 2 and no publish during the wait times out. -/
theorem invalidate_blocks_readers_witness :
    (invalidate ⟨5, 6, 7, true, false⟩).has_value = false ∧
      read (store_run (invalidate ⟨5, 6, 7, true, false⟩) [StoreEvent.consumeE]) 2 none =
        (ReadResult.timeout_error, 2) :=
  ⟨(invalidate_blocks_readers ⟨5, 6, 7, true, false⟩ [StoreEvent.consumeE] (by decide)).1,
   (invalidate_blocks_readers ⟨5, 6, 7, true, false⟩ [StoreEvent.consumeE] (by decide)).2.2.1 2⟩

/-- Claim C10: in the same store state and with the same timeout (and the
same publish activity during the wait), the one-argument overload of
`time_correction` returns exactly the offset component of the three-argument
overload, which additionally yields the auxiliary `remote_time` and
`uncertainty` outputs; the overloads agree on success and on timeout
failure. -/
theorem time_correction_overloads_agree (s : OffsetState) (timeout : ℚ)
    (arrival : Option PublishArrival) :
    time_correction s timeout arrival =
      Except.map Prod.fst (time_correction_out s timeout arrival) := by
  unfold time_correction time_correction_out
  cases (read s timeout arrival).1 with
  | ok o r u => rfl
  | timeout_error => rfl

/-- Every worker event other than `recovery` preserves a published value. -/
theorem rx_step_preserves_has_value (s : TimeReceiverState) (e : RxEvent)
    (h : s.store.has_value = true) (he : e ≠ RxEvent.recovery) :
    (rx_step s e).store.has_value = true := by
  cases e with
  | startWave => exact h
  | receiveReply p pk t =>
    show (handle_receive_outcome s p pk t).store.has_value = true
    unfold handle_receive_outcome
    split
    · exact h
    · exact h
  | aggregate =>
    show (result_aggregation_scheduled s).store.has_value = true
    unfold result_aggregation_scheduled
    split
    · exact h
    · rfl
  | recovery => exact absurd rfl he

/-- A published value survives any recovery-free run of worker events. -/
theorem rx_run_preserves_has_value (es : List RxEvent) :
    ∀ s : TimeReceiverState, s.store.has_value = true → RxEvent.recovery ∉ es →
      (rx_run s es).store.has_value = true := by
  induction es with
  | nil => intro s h _; exact h
  | cons e es ih =>
    intro s h hne
    have hne' : RxEvent.recovery ∉ es := fun hmem => hne (List.mem_cons_of_mem _ hmem)
    have he : e ≠ RxEvent.recovery := fun heq => hne (heq ▸ List.mem_cons_self _ _)
    exact ih _ (rx_step_preserves_has_value s e h he) hne'

/-- Aggregating a wave with at least one collected estimate publishes, so
`has_value` becomes true. -/
theorem aggregation_nonempty_sets_has_value (s : TimeReceiverState)
    (h : s.estimates ≠ []) (hlen : s.estimates.length = s.estimate_times.length) :
    (result_aggregation_scheduled s).store.has_value = true := by
  cases hz : s.estimates.zip s.estimate_times with
  | nil =>
    exfalso
    have h0 : (s.estimates.zip s.estimate_times).length = 0 := by rw [hz]; rfl
    rw [List.length_zip, ← hlen, min_self] at h0
    exact h (List.length_eq_zero.mp h0)
  | cons p rest =>
    unfold result_aggregation_scheduled
    rw [hz]
    rfl

/-- Claim C8 (counterexample): a wave with one successful reply publishes and
`has_value` becomes true, but a subsequent connection-recovery event makes it
false again — `has_value` is not monotone over executions that contain a
recovery. -/
theorem has_value_not_monotone_counterexample :
    (rx_run init_state [RxEvent.startWave,
        RxEvent.receiveReply ⟨1, 0, 0⟩ ⟨1, 0, 10⟩ (1/100),
        RxEvent.aggregate]).store.has_value = true ∧
      (rx_run init_state [RxEvent.startWave,
          RxEvent.receiveReply ⟨1, 0, 0⟩ ⟨1, 0, 10⟩ (1/100),
          RxEvent.aggregate, RxEvent.recovery]).store.has_value = false := by
  constructor
  · rfl
  · rfl

/-- Claim C8 (amended): once a wave with at least one collected estimate
aggregates, `has_value` is true, and it remains true across every further
run of worker events that contains no connection-recovery invalidation. -/
theorem has_value_monotone_without_recovery :
    (∀ s : TimeReceiverState, s.estimates ≠ [] →
      s.estimates.length = s.estimate_times.length →
      (result_aggregation_scheduled s).store.has_value = true) ∧
    (∀ (s : TimeReceiverState) (es : List RxEvent), s.store.has_value = true →
      RxEvent.recovery ∉ es → (rx_run s es).store.has_value = true) :=
  ⟨aggregation_nonempty_sets_has_value, fun s es h hne =>
    rx_run_preserves_has_value es s h hne⟩

/-- Witness for the amended C8 at a concrete wave and a concrete
recovery-free continuation. -/
theorem has_value_monotone_without_recovery_witness :
    (result_aggregation_scheduled
        { store := ⟨0, 0, 0, false, false⟩, current_wave_id := 1,
          estimates := [(5, 2)], estimate_times := [(1, 6)] }).store.has_value = true ∧
      (rx_run
        { store := ⟨5, 6, 7, true, false⟩, current_wave_id := 1,
          estimates := [], estimate_times := [] }
        [RxEvent.startWave, RxEvent.aggregate]).store.has_value = true :=
  ⟨has_value_monotone_without_recovery.1 _ (by decide) (by decide),
   has_value_monotone_without_recovery.2 _ [RxEvent.startWave, RxEvent.aggregate]
     rfl (by decide)⟩

/-- No worker event ever decreases the current wave id. -/
theorem rx_step_wave_id_le (s : TimeReceiverState) (e : RxEvent) :
    s.current_wave_id ≤ (rx_step s e).current_wave_id := by
  cases e with
  | startWave =>
    have hid : (rx_step s RxEvent.startWave).current_wave_id = s.current_wave_id + 1 := rfl
    rw [hid]
    omega
  | receiveReply p pk t =>
    show s.current_wave_id ≤ (handle_receive_outcome s p pk t).current_wave_id
    unfold handle_receive_outcome
    split
    · exact le_refl _
    · exact le_refl _
  | aggregate =>
    show s.current_wave_id ≤ (result_aggregation_scheduled s).current_wave_id
    unfold result_aggregation_scheduled
    split
    · exact le_refl _
    · exact le_refl _
  | recovery => exact le_refl _

/-- Every wave id allocated during a run is strictly greater than the wave id
current at the start of the run. -/
theorem wave_ids_all_gt (es : List RxEvent) :
    ∀ (s : TimeReceiverState) (i : ℤ), i ∈ wave_ids s es →
      s.current_wave_id < i := by
  induction es with
  | nil => intro s i hi; exact absurd hi (List.not_mem_nil _)
  | cons e es ih =>
    intro s i hi
    cases e with
    | startWave =>
      rcases List.mem_cons.mp hi with hEq | hMem
      · rw [hEq]
        show s.current_wave_id < s.current_wave_id + 1
        omega
      · have h1 := ih (rx_step s RxEvent.startWave) i hMem
        have h2 : s.current_wave_id < (rx_step s RxEvent.startWave).current_wave_id := by
          show s.current_wave_id < s.current_wave_id + 1
          omega
        exact lt_trans h2 h1
    | receiveReply p pk t =>
      exact lt_of_le_of_lt (rx_step_wave_id_le s (RxEvent.receiveReply p pk t))
        (ih (rx_step s (RxEvent.receiveReply p pk t)) i hi)
    | aggregate =>
      exact lt_of_le_of_lt (rx_step_wave_id_le s RxEvent.aggregate)
        (ih (rx_step s RxEvent.aggregate) i hi)
    | recovery =>
      exact lt_of_le_of_lt (rx_step_wave_id_le s RxEvent.recovery)
        (ih (rx_step s RxEvent.recovery) i hi)

/-- The wave ids allocated during a run form a strictly increasing list. -/
theorem wave_ids_pairwise_lt (es : List RxEvent) :
    ∀ s : TimeReceiverState, (wave_ids s es).Pairwise (· < ·) := by
  induction es with
  | nil => intro s; exact List.Pairwise.nil
  | cons e es ih =>
    intro s
    cases e with
    | startWave =>
      refine List.Pairwise.cons ?_ (ih (rx_step s RxEvent.startWave))
      intro i hi
      exact wave_ids_all_gt es (rx_step s RxEvent.startWave) i hi
    | receiveReply p pk t => exact ih (rx_step s (RxEvent.receiveReply p pk t))
    | aggregate => exact ih (rx_step s RxEvent.aggregate)
    | recovery => exact ih (rx_step s RxEvent.recovery)

/-- Claim C9: wave ids allocated by `start_time_estimation` form a strictly
increasing sequence over every run — each allocation yields an id strictly
greater than the previous current id (there is a single current wave id at
any time) — and allocating a new wave clears both the Estimate and the
TimedSample sequences. -/
theorem wave_allocation_invariants :
    (∀ (s : TimeReceiverState) (es : List RxEvent),
      (wave_ids s es).Pairwise (· < ·)) ∧
    (∀ s : TimeReceiverState,
      s.current_wave_id < (start_time_estimation s).current_wave_id ∧
      (start_time_estimation s).estimates = [] ∧
      (start_time_estimation s).estimate_times = []) :=
  ⟨fun s es => wave_ids_pairwise_lt es s,
   fun s => ⟨by show s.current_wave_id < s.current_wave_id + 1; omega, rfl, rfl⟩⟩

/-- Folding `better` over a list yields the start element or a list
element. -/
theorem foldl_better_eq_or_mem (l : List ((ℚ × ℚ) × (ℚ × ℚ))) :
    ∀ p, l.foldl better p = p ∨ l.foldl better p ∈ l := by
  induction l with
  | nil => intro p; exact Or.inl rfl
  | cons x l ih =>
    intro p
    rcases ih (better p x) with h | h
    · rw [List.foldl_cons, h]
      unfold better
      by_cases hx : x.1.2 < p.1.2
      · rw [if_pos hx]; exact Or.inr (List.mem_cons_self _ _)
      · rw [if_neg hx]; exact Or.inl rfl
    · rw [List.foldl_cons]
      exact Or.inr (List.mem_cons_of_mem _ h)

/-- Folding `better` never increases the uncertainty of the running
minimum. -/
theorem foldl_better_le_start (l : List ((ℚ × ℚ) × (ℚ × ℚ))) :
    ∀ p, (l.foldl better p).1.2 ≤ p.1.2 := by
  induction l with
  | nil => intro p; exact le_refl _
  | cons x l ih =>
    intro p
    rw [List.foldl_cons]
    refine le_trans (ih (better p x)) ?_
    unfold better
    by_cases hx : x.1.2 < p.1.2
    · rw [if_pos hx]; exact le_of_lt hx
    · rw [if_neg hx]

/-- The uncertainty of the fold of `better` is at most the uncertainty of
every list element. -/
theorem foldl_better_le_mem (l : List ((ℚ × ℚ) × (ℚ × ℚ))) :
    ∀ p q, q ∈ l → (l.foldl better p).1.2 ≤ q.1.2 := by
  induction l with
  | nil => intro p q hq; exact absurd hq (List.not_mem_nil _)
  | cons x l ih =>
    intro p q hq
    rw [List.foldl_cons]
    rcases List.mem_cons.mp hq with hEq | hMem
    · refine le_trans (foldl_better_le_start l (better p x)) ?_
      unfold better
      by_cases hx : x.1.2 < p.1.2
      · rw [if_pos hx, hEq]
      · rw [if_neg hx, hEq]; exact le_of_not_lt hx
    · exact ih (better p x) q hMem

/-- Claim C1: when the collected Estimates are non-empty at the aggregation
deadline, the aggregation publishes exactly one collected (estimate, timed
sample) pair — offset, matching remote time, and uncertainty — whose
uncertainty (round-trip time) is minimal among all collected estimates; and
in the §8 scenario with replies to probes 0, 2, 5 carrying round trips
0.004, 0.002, 0.009 seconds, probe 2's estimate is selected, publishing
offset `t1 − (a2 + 0.001)` with uncertainty 0.002 (where offset and
uncertainty follow the formulas applied by `handle_receive_outcome`). -/
theorem aggregation_publishes_min_uncertainty :
    (∀ s : TimeReceiverState, s.estimates ≠ [] →
      s.estimates.length = s.estimate_times.length →
      ∃ p ∈ s.estimates.zip s.estimate_times,
        (result_aggregation_scheduled s).store = publish s.store p.1.1 p.2.2 p.1.2 ∧
        ∀ e ∈ s.estimates, p.1.2 ≤ e.2) ∧
    (∀ (s : TimeReceiverState) (t0 t1 t2 a0 a2 a5 : ℚ),
      (wave_scenario s t0 t1 t2 a0 a2 a5).store.timeoffset = t1 - (a2 + 1/1000) ∧
      (wave_scenario s t0 t1 t2 a0 a2 a5).store.uncertainty = 2/1000 ∧
      (wave_scenario s t0 t1 t2 a0 a2 a5).store.remote_time = t1 ∧
      (wave_scenario s t0 t1 t2 a0 a2 a5).store.has_value = true) := by
  constructor
  · intro s h hlen
    cases hz : s.estimates.zip s.estimate_times with
    | nil =>
      exfalso
      have h0 : (s.estimates.zip s.estimate_times).length = 0 := by rw [hz]; rfl
      rw [List.length_zip, ← hlen, min_self] at h0
      exact h (List.length_eq_zero.mp h0)
    | cons p rest =>
      have hagg : (result_aggregation_scheduled s).store =
          publish s.store (rest.foldl better p).1.1 (rest.foldl better p).2.2
            (rest.foldl better p).1.2 := by
        unfold result_aggregation_scheduled
        rw [hz]
      refine ⟨rest.foldl better p, ?_, hagg, ?_⟩
      · rcases foldl_better_eq_or_mem rest p with h1 | h1
        · rw [h1]; exact List.mem_cons_self _ _
        · exact List.mem_cons_of_mem _ h1
      · intro e he
        have hmap : (s.estimates.zip s.estimate_times).map Prod.fst = s.estimates :=
          List.map_fst_zip _ _ (le_of_eq hlen)
        have he2 : e ∈ (s.estimates.zip s.estimate_times).map Prod.fst := by
          rw [hmap]; exact he
        rcases List.mem_map.mp he2 with ⟨q, hq, hqe⟩
        rw [hz] at hq
        rcases List.mem_cons.mp hq with hEq | hMem
        · rw [← hqe, hEq]
          exact foldl_better_le_start rest p
        · rw [← hqe]
          exact foldl_better_le_mem rest p q hMem
  · intro s t0 t1 t2 a0 a2 a5
    have e0 : a0 + 4/1000 - a0 = (4:ℚ)/1000 := by ring
    have e2 : a2 + 2/1000 - a2 = (2:ℚ)/1000 := by ring
    have e5 : a5 + 9/1000 - a5 = (9:ℚ)/1000 := by ring
    simp only [wave_scenario, start_time_estimation, handle_receive_outcome,
      result_aggregation_scheduled, publish]
    norm_num [e0, e2, e5]
    norm_num [better]

/-- Witness for C1 at a concrete state holding two estimates, the second of
which has the smaller uncertainty. -/
theorem aggregation_publishes_min_uncertainty_witness :
    ∃ p ∈ [((5 : ℚ), (3 : ℚ)), (9, 2)].zip [((1 : ℚ), (6 : ℚ)), (4, 7)],
      (result_aggregation_scheduled
          { store := ⟨0, 0, 0, false, false⟩, current_wave_id := 1,
            estimates := [(5, 3), (9, 2)],
            estimate_times := [(1, 6), (4, 7)] }).store =
        publish ⟨0, 0, 0, false, false⟩ p.1.1 p.2.2 p.1.2 ∧
      ∀ e ∈ [((5 : ℚ), (3 : ℚ)), (9, 2)], p.1.2 ≤ e.2 :=
  aggregation_publishes_min_uncertainty.1
    { store := ⟨0, 0, 0, false, false⟩, current_wave_id := 1,
      estimates := [(5, 3), (9, 2)], estimate_times := [(1, 6), (4, 7)] }
    (by decide) (by decide)

end TimeReceiver
